import Mathlib

/-!
# parseltongue: buffer store (test01) and player rank (test02)

A shallow embedding of the C sources

* `src/python/test01/test_data.c`  (`max_value`, `test_data`)
* `src/python/test01/test.c`       (`test_set_data`, `test_get_max`)
* `src/python/test01/spi.c`        (`set_data`, `get_max`)
* `src/python/test02/player.c`     (`Player_new`, `Player_init`, `Player_setrank`,
                                    `Player_increase_rank`, `Player_decrease_rank`)

Modelling conventions.

* A C `double` is an element of an arbitrary linearly ordered type `α` with a zero
  (the value `calloc` fills a fresh buffer with); NaN and rounding are outside the model.
* A pointer to a buffer of doubles is `Ptr α = Option (List α)`: `none` is `NULL`,
  `some buf` is an allocated array with contents `buf`.  Reading or writing outside the
  array, or through `NULL`, has no defined result: the embedded function returns `none`.
* `calloc` with a size that is not negative is taken to succeed and to return a non-null
  pointer, also for size 0 (as glibc does); a negative `int` converts to a `size_t` that no
  allocation satisfies, and `calloc` returns `NULL`. `free` has no observable effect.
* A C `int` and a `Py_ssize_t` are an `Int`; list lengths are assumed to fit in a C `int`
  (the variable length array `double input_data[list_size]` lives on the stack).
* The data model is LP64, little-endian: a C `int` has 32 bits, a C `long` is 64 bit two's
  complement, and arithmetic on it is wrapped by `wrap_long`.
* Static and global C variables become fields of an explicit state that every function
  takes and returns.
-/

set_option autoImplicit false
set_option linter.unusedSectionVars false

namespace Parseltongue

/-! ## test01/test_data.c -/

/-- A pointer to a buffer: `none` is `NULL`, `some buf` an array holding `buf`. -/
abbrev Ptr (α : Type) := Option (List α)

section TestData

variable {α : Type} [LinearOrder α] [Zero α]

/-- The body of `for(int i=1; i<input_size; i++) if(max_val < p[i]) max_val = p[i];`
with `k` iterations left, the loop counter at `i` and the running maximum `max_val`.
An index outside the buffer has no value. -/
def max_loop (p : List α) : Nat → Nat → α → Option α
  | 0, _, max_val => some max_val
  | k + 1, i, max_val =>
    match p[i]? with
    | none => none
    | some x => max_loop p k (i + 1) (if max_val < x then x else max_val)

/-- `double max_value(double *p, int input_size)`: `max_val = *p`, then the loop for
`i = 1 .. input_size - 1`. -/
def max_value (p : Ptr α) (input_size : Int) : Option α :=
  match p with
  | none => none
  | some buf =>
    match buf[0]? with
    | none => none
    | some x0 => max_loop buf (input_size - 1).toNat 1 x0

/-- The two static variables of `test_data`. -/
structure DataState (α : Type) where
  old_size : Int
  data : Ptr α
deriving DecidableEq, Repr

/-- The values the statics are initialised with: `old_size = 0`, `data = NULL`. -/
def DataState.init : DataState α := ⟨0, none⟩

/-- The body of `for (int i=0;i<old_size;i++) data[i] = input_data[i];`
with `k` iterations left and the loop counter at `i`. Reading `input_data[i]` or writing
`data[i]` outside the array (or through `NULL`) has no defined result. -/
def copy_loop (input_data : Ptr α) : Nat → Nat → Ptr α → Option (Ptr α)
  | 0, _, data => some data
  | k + 1, i, data =>
    match input_data, data with
    | some inp, some d =>
      match inp[i]? with
      | some x =>
        if i < d.length then copy_loop input_data k (i + 1) (some (d.set i x)) else none
      | none => none
    | _, _ => none

/-- `calloc(n, sizeof(double))` for an `int n`: a fresh array of `n` zeros, or `NULL` when
`n` is negative (the conversion to `size_t` asks for more than can be allocated). -/
def calloc (n : Int) : Ptr α :=
  if 0 ≤ n then some (List.replicate n.toNat 0) else none

/-- `double * test_data(double *input_data, int new_size, int option)`.
Returns the new statics and the returned pointer; `none` when the copy loop reads or
writes outside a buffer. -/
def test_data (s : DataState α) (input_data : Ptr α) (new_size : Int) (option : Int) :
    Option (DataState α × Ptr α) :=
  if option = 1 then
    let s1 : DataState α :=
      if s.old_size = 0 then ⟨new_size, calloc new_size⟩ else s
    if new_size = s1.old_size then
      (copy_loop input_data s1.old_size.toNat 0 s1.data).map fun d => (⟨s1.old_size, d⟩, d)
    else some (s1, s1.data)
  else if option = 3 then some (⟨0, none⟩, none)
  else some (s, s.data)

/-! ## test01/test.c -/

/-- The Python objects the element loop of `test_set_data` and `set_data` tells apart:
`PyLong_Check` holds, `PyFloat_Check` holds, or neither. -/
inductive PyObj (α : Type) where
  | long (n : Int)
  | float (x : α)
  | other
deriving DecidableEq, Repr

/-- The argument tuple of `set_data` as `PyArg_ParseTuple(arg, "O", &input)` sees it:
`bad` when the tuple does not hold exactly one object; otherwise the object, which is a
list with its items or something that is not a list (`PyList_Size` then returns `-1`). -/
inductive SetArg (α : Type) where
  | bad
  | list (items : List (PyObj α))
  | not_list
deriving DecidableEq, Repr

/-- The element loop `for(int i = 0; i < list_size; i++)` of `test_set_data` and `set_data`:
an int becomes `(double)PyLong_AsSsize_t(item)` (the conversion is the parameter
`long_as_double`), a float its value, anything else leaves the function (`none`). -/
def read_items (long_as_double : Int → α) : List (PyObj α) → Option (List α)
  | [] => some []
  | PyObj.long n :: rest => (read_items long_as_double rest).map (long_as_double n :: ·)
  | PyObj.float x :: rest => (read_items long_as_double rest).map (x :: ·)
  | PyObj.other :: _ => none

/-- The messages `test.c` passes to `PyErr_SetString(TestError, ...)`. -/
inductive TestError where
  /-- The message is "Error! Cannot parse data." -/
  | cannot_parse
  /-- The message is "Error! Input is not a float or int." -/
  | not_float_or_int
  /-- The message is "Error! Data could not be set." -/
  | could_not_be_set
  /-- The message is "Error! No data." -/
  | no_data
deriving DecidableEq, Repr

/-- The globals of `test.c` (`has_data`, `list_size`) and the statics of `test_data`. -/
structure TestState (α : Type) where
  has_data : Nat
  list_size : Int
  store : DataState α
deriving DecidableEq, Repr

/-- The state at module load: the globals are zero, the store is empty. -/
def TestState.init : TestState α := ⟨0, 0, DataState.init⟩

/-- `test_set_data`: the new state and the error set, if any (the function returns `None`
on every path). `none` when `test_data` has no defined result. For an object that is not a
list `list_size` is `-1`, the element loop does not run and `input_data` has no element. -/
def test_set_data (long_as_double : Int → α) (s : TestState α) (arg : SetArg α) :
    Option (TestState α × Option TestError) :=
  let cleared : Option (TestState α) :=
    if s.has_data = 1 then
      (test_data s.store none 0 3).map fun r => { s with has_data := 0, store := r.1 }
    else some s
  match cleared with
  | none => none
  | some s1 =>
    match arg with
    | SetArg.bad => some (s1, some TestError.cannot_parse)
    | SetArg.list items =>
      let s2 : TestState α := { s1 with list_size := items.length }
      match read_items long_as_double items with
      | none => some (s2, some TestError.not_float_or_int)
      | some input_data =>
        let s3 : TestState α := { s2 with has_data := 1 }
        match test_data s3.store (some input_data) s3.list_size 1 with
        | none => none
        | some (st, p) =>
          some ({ s3 with store := st },
            if p.isNone then some TestError.could_not_be_set else none)
    | SetArg.not_list =>
      let s2 : TestState α := { s1 with list_size := -1 }
      let s3 : TestState α := { s2 with has_data := 1 }
      match test_data s3.store (some []) s3.list_size 1 with
      | none => none
      | some (st, p) =>
        some ({ s3 with store := st },
          if p.isNone then some TestError.could_not_be_set else none)

/-- What `test_get_max` does: it sets the error (and returns `None`) without calling
`max_value`, or it returns `PyFloat_FromDouble(max_value(...))`, where `max_val` is
`none` when `max_value` read outside the buffer. -/
inductive MaxResult (α : Type) where
  | error (e : TestError)
  | returned (max_val : Option α)
deriving DecidableEq, Repr

/-- `test_get_max`: the new state and the result. `none` when `test_data` has no defined
result. -/
def test_get_max (s : TestState α) : Option (TestState α × MaxResult α) :=
  if s.has_data = 0 then some (s, MaxResult.error TestError.no_data)
  else
    match test_data s.store none s.list_size 2 with
    | none => none
    | some (st, p) => some ({ s with store := st }, MaxResult.returned (max_value p s.list_size))

/-! ## test01/spi.c -/

/-- The static `max_val` and the global `list_size` of `spi.c`. -/
structure SpiState (α : Type) where
  max_val : α
  list_size : Int
deriving DecidableEq, Repr

/-- The state of `spi.c` at module load: both variables are zero. -/
def SpiState.init : SpiState α := ⟨0, 0⟩

/-- `set_data` of `spi.c`: a tuple that does not parse and an element that is no number
leave `max_val` as it is; otherwise `max_val = max_value(indata, list_size)`.
`none` when `max_value` reads outside `indata` (as it does for an object that is not a
list, where `list_size` is `-1` and `indata` has no element). -/
def Spi.set_data (long_as_double : Int → α) (s : SpiState α) (arg : SetArg α) :
    Option (SpiState α) :=
  match arg with
  | SetArg.bad => some s
  | SetArg.list items =>
    let s1 : SpiState α := { s with list_size := items.length }
    match read_items long_as_double items with
    | none => some s1
    | some indata =>
      (max_value (some indata) s1.list_size).map fun m => { s1 with max_val := m }
  | SetArg.not_list =>
    let s1 : SpiState α := { s with list_size := -1 }
    (max_value (some []) s1.list_size).map fun m => { s1 with max_val := m }

/-- `get_max` of `spi.c`: `PyFloat_FromDouble(max_val)`. -/
def Spi.get_max (s : SpiState α) : α := s.max_val

/-! ## Auxiliary definitions: closed form of the scan, reachable states of test.c -/

/-- The running maximum over a list as the loop body of `max_value` updates it
(an auxiliary closed form of `max_loop`, used in the proofs). -/
def scan_max (acc : α) (l : List α) : α :=
  l.foldl (fun m x => if m < x then x else m) acc

/-- The states of `test.c` reached from module load by calls of `test_get_max` and of
`test_set_data` with a list argument (or with a tuple that does not parse). -/
inductive Reachable (long_as_double : Int → α) : TestState α → Prop where
  | init : Reachable long_as_double TestState.init
  | set_data (s s1 : TestState α) (arg : SetArg α) (e : Option TestError) :
      Reachable long_as_double s → arg ≠ SetArg.not_list →
      test_set_data long_as_double s arg = some (s1, e) →
      Reachable long_as_double s1
  | get_max (s s1 : TestState α) (r : MaxResult α) :
      Reachable long_as_double s → test_get_max s = some (s1, r) →
      Reachable long_as_double s1

/-- The states of `test.c` reached, by calls with list arguments, without a successful set
since module load or since the last clear: the state at module load, the state left by a
call of `test_set_data` that set an error and whose argument was a list or a tuple that
does not parse (the only clear is the one at the start of `test_set_data`), and what
`test_get_max` makes of such a state. A failed set with an object that is not a list is
not among them: it leaves `has_data = 1`. -/
inductive Unset (long_as_double : Int → α) : TestState α → Prop where
  | init : Unset long_as_double TestState.init
  | failed_set (s s1 : TestState α) (arg : SetArg α) (e : TestError) :
      Reachable long_as_double s → arg ≠ SetArg.not_list →
      test_set_data long_as_double s arg = some (s1, some e) →
      Unset long_as_double s1
  | get_max (s s1 : TestState α) (r : MaxResult α) :
      Unset long_as_double s → test_get_max s = some (s1, r) →
      Unset long_as_double s1

/-- The flag and the buffer agree: without data the store is empty, with data the store
holds a sequence of the recorded size. -/
def Synced (s : TestState α) : Prop :=
  (s.has_data = 0 ∧ s.store = DataState.init) ∨
  (s.has_data = 1 ∧ ∃ v : List α, s.store = ⟨v.length, some v⟩ ∧ s.list_size = v.length)

/-- The first block of `test_set_data`:
`if (has_data == 1) { has_data = 0; test_data(0, 0, 3); }`. The state it leaves is the one
the later `test_data(input_data, list_size, 1)` call finds the store in. -/
def clear_if_has_data (s : TestState α) : Option (TestState α) :=
  if s.has_data = 1 then
    (test_data s.store none 0 3).map fun r => { s with has_data := 0, store := r.1 }
  else some s

/-- The states of `test.c` reachable by calls with list arguments, together with the last
accepted input: the sequence read from the list of the most recent `test_set_data` call
that set no error (`none` when there was no such call). -/
inductive ReachableLast (long_as_double : Int → α) :
    TestState α → Option (List α) → Prop where
  | init : ReachableLast long_as_double TestState.init none
  | accepted (s s1 : TestState α) (last : Option (List α)) (items : List (PyObj α))
      (v : List α) :
      ReachableLast long_as_double s last →
      test_set_data long_as_double s (SetArg.list items) = some (s1, none) →
      read_items long_as_double items = some v →
      ReachableLast long_as_double s1 (some v)
  | refused (s s1 : TestState α) (last : Option (List α)) (arg : SetArg α) (e : TestError) :
      ReachableLast long_as_double s last → arg ≠ SetArg.not_list →
      test_set_data long_as_double s arg = some (s1, some e) →
      ReachableLast long_as_double s1 last
  | get_max (s s1 : TestState α) (last : Option (List α)) (r : MaxResult α) :
      ReachableLast long_as_double s last → test_get_max s = some (s1, r) →
      ReachableLast long_as_double s1 last

end TestData

/-! ## test02/player.c -/

/-- The Python objects the checks of `player.c` tell apart: `PyLong_Check` holds (with the
integer value), `PyUnicode_Check` holds (with the text), or neither. -/
inductive PyVal where
  | long (n : Int)
  | str (t : String)
  | other
deriving DecidableEq, Repr

/-- `LONG_MAX` of a 64 bit C `long`. -/
def LONG_MAX : Int := 2 ^ 63 - 1

/-- `LONG_MIN` of a 64 bit C `long`. -/
def LONG_MIN : Int := -(2 ^ 63)

/-- `INT_MAX` of a 32 bit C `int`. -/
def INT_MAX : Int := 2 ^ 31 - 1

/-- `INT_MIN` of a 32 bit C `int`. -/
def INT_MIN : Int := -(2 ^ 31)

/-- The value of a C `long` expression whose mathematical value is `x`
(64 bit two's complement wrap-around). -/
def wrap_long (x : Int) : Int := (x + 2 ^ 63) % 2 ^ 64 - 2 ^ 63

/-- `PyLong_AsLong` on a Python int of value `n`: the value when it fits in a `long`,
otherwise `-1` (with `OverflowError` set). -/
def PyLong_AsLong (n : Int) : Int := if LONG_MIN ≤ n ∧ n ≤ LONG_MAX then n else -1

/-- `PyLong_FromLong`: the Python int holding the value of the `long`
(the allocation is taken to succeed). -/
def PyLong_FromLong (x : Int) : Int := x

/-- The `Player` object: `name` and `tier` hold a `str`, `rank` holds a Python int
(an unbounded integer). -/
structure Player where
  name : String
  rank : Int
  tier : String
deriving DecidableEq, Repr

/-- `Player_new`: empty name, rank `PyLong_FromLong(0)`, empty tier. -/
def Player_new : Player := ⟨"", PyLong_FromLong 0, ""⟩

/-- The arguments of `Player_init` after `PyArg_ParseTupleAndKeywords(.., "|OOO", ..)`:
each of `name`, `rank`, `tier` is given or not (`NULL`). -/
structure InitArgs where
  name : Option PyVal
  rank : Option PyVal
  tier : Option PyVal
deriving DecidableEq, Repr

/-- What `Player_init` returns: `0`, or `-1` with the error that was set. -/
inductive InitResult where
  /-- Returned `0`. -/
  | ok
  /-- Returned `-1`: `PyArg_ParseTupleAndKeywords` failed. -/
  | parse_failed
  /-- Returned `-1`, the message is "name must be unicode." -/
  | name_must_be_unicode
  /-- Returned `-1`, the message is "rank must be unsigned long." -/
  | rank_must_be_unsigned_long
  /-- Returned `-1`, the message is "tier must be unicode." -/
  | tier_must_be_unicode
deriving DecidableEq, Repr

/-- The block `if (tier) { ... }` of `Player_init` and the `return 0` after it. -/
def init_tier (self : Player) (tier : Option PyVal) : Player × InitResult :=
  match tier with
  | none => (self, InitResult.ok)
  | some (PyVal.str t) => ({ self with tier := t }, InitResult.ok)
  | some _ => (self, InitResult.tier_must_be_unicode)

/-- The block `if (rank) { ... }` of `Player_init` and what follows it. -/
def init_rank (self : Player) (rank tier : Option PyVal) : Player × InitResult :=
  match rank with
  | none => init_tier self tier
  | some (PyVal.long n) =>
    if PyLong_AsLong n ≥ 0 then init_tier { self with rank := n } tier
    else (self, InitResult.rank_must_be_unsigned_long)
  | some _ => (self, InitResult.rank_must_be_unsigned_long)

/-- `Player_init`: the object after the call and what the call returned.
`args = none` stands for arguments that `PyArg_ParseTupleAndKeywords` refuses. -/
def Player_init (self : Player) (args : Option InitArgs) : Player × InitResult :=
  match args with
  | none => (self, InitResult.parse_failed)
  | some a =>
    match a.name with
    | none => init_rank self a.rank a.tier
    | some (PyVal.str t) => init_rank { self with name := t } a.rank a.tier
    | some _ => (self, InitResult.name_must_be_unicode)

/-- What a `long` that held `old` holds after a C `int` of value `n` was written through
its address: on the little-endian LP64 machine the low four bytes are those of `n`, the
high four bytes are kept. -/
def store_int_in_long (old n : Int) : Int :=
  wrap_long (old % 2 ^ 64 / 2 ^ 32 * 2 ^ 32 + n % 2 ^ 32)

/-- `PyArg_ParseTuple(arg, "|i", &x)` on the positional arguments `arg`, for a variable
`long x` that holds `dflt` before the call: no argument leaves `x` as it is; one Python int
that fits in a C `int` is written as a C `int` through `&x` (see `store_int_in_long`);
anything else fails (`none`). The result is the value of `x` after the call. -/
def parse_opt_int (arg : List PyVal) (dflt : Int) : Option Int :=
  match arg with
  | [] => some dflt
  | [PyVal.long n] =>
    if INT_MIN ≤ n ∧ n ≤ INT_MAX then some (store_int_in_long dflt n) else none
  | _ => none

/-- `Player_increase_rank`: the object after the call (the function returns `None` on
every path). -/
def Player_increase_rank (self : Player) (arg : List PyVal) : Player :=
  let tmp := self.rank
  match parse_opt_int arg 1 with
  | none => self
  | some rank_inc =>
    let new_rank := PyLong_FromLong (wrap_long (PyLong_AsLong tmp + rank_inc))
    { self with rank := new_rank }

/-- `Player_decrease_rank`: the object after the call and the value printed by the
"rank cannot be bellow 0" message, if it was printed (the function returns `None` on
every path). -/
def Player_decrease_rank (self : Player) (arg : List PyVal) : Player × Option Int :=
  let tmp := self.rank
  let rank := PyLong_AsLong tmp
  match parse_opt_int arg 1 with
  | none => (self, none)
  | some rank_dec =>
    let rank := wrap_long (rank - rank_dec)
    if rank < 0 then (self, some rank)
    else ({ self with rank := PyLong_FromLong rank }, none)

/-- The status `Player_setrank` returns together with the `TypeError` it sets. -/
inductive SetRankResult where
  /-- Returned `0`. -/
  | ok
  /-- Returned `-1`, the message is "Cannot delete the rank." -/
  | cannot_delete
  /-- Returned `-1`, the message is "rank must be unsigned long." -/
  | must_be_unsigned_long
deriving DecidableEq, Repr

/-- `Player_setrank`: `value = none` is the `NULL` of an attribute deletion. -/
def Player_setrank (self : Player) (value : Option PyVal) : Player × SetRankResult :=
  match value with
  | none => (self, SetRankResult.cannot_delete)
  | some (PyVal.long n) =>
    if PyLong_AsLong n ≥ 0 then ({ self with rank := n }, SetRankResult.ok)
    else (self, SetRankResult.must_be_unsigned_long)
  | some _ => (self, SetRankResult.must_be_unsigned_long)

/-! ## Lemmas on the loops -/

section Lemmas

variable {α : Type} [LinearOrder α] [Zero α]

theorem scan_max_nil (acc : α) : scan_max acc [] = acc := rfl

theorem scan_max_cons (acc x : α) (l : List α) :
    scan_max acc (x :: l) = scan_max (if acc < x then x else acc) l := rfl

theorem scan_max_ge (l : List α) : ∀ acc : α, acc ≤ scan_max acc l ∧ ∀ x ∈ l, x ≤ scan_max acc l := by
  induction l with
  | nil => intro acc; simp [scan_max_nil]
  | cons y l ih =>
    intro acc
    rw [scan_max_cons]
    obtain ⟨h1, h2⟩ := ih (if acc < y then y else acc)
    have hacc : acc ≤ (if acc < y then y else acc) := by
      split_ifs with h
      · exact le_of_lt h
      · exact le_refl _
    have hy : y ≤ (if acc < y then y else acc) := by
      split_ifs with h
      · exact le_refl _
      · exact not_lt.mp h
    refine ⟨le_trans hacc h1, ?_⟩
    intro x hx
    rcases List.mem_cons.mp hx with rfl | hx
    · exact le_trans hy h1
    · exact h2 x hx

theorem scan_max_mem (l : List α) : ∀ acc : α, scan_max acc l = acc ∨ scan_max acc l ∈ l := by
  induction l with
  | nil => intro acc; left; rfl
  | cons y l ih =>
    intro acc
    rw [scan_max_cons]
    rcases ih (if acc < y then y else acc) with h | h
    · rw [h]
      split_ifs
      · right; exact List.mem_cons_self _ _
      · left; rfl
    · right; exact List.mem_cons_of_mem _ h

theorem max_loop_eq_scan (p : List α) :
    ∀ (k i : Nat) (m : α), i + k = p.length → max_loop p k i m = some (scan_max m (p.drop i)) := by
  intro k
  induction k with
  | zero =>
    intro i m h
    have : p.drop i = [] := List.drop_eq_nil_of_le (by omega)
    simp [max_loop, this, scan_max_nil]
  | succ k ih =>
    intro i m h
    have hi : i < p.length := by omega
    have hd : p.drop i = p[i] :: p.drop (i + 1) := List.drop_eq_getElem_cons hi
    simp only [max_loop, List.getElem?_eq_getElem hi]
    rw [ih (i + 1) _ (by omega), hd, scan_max_cons]

theorem max_value_spec (v : List α) (hv : v ≠ []) :
    ∃ m, max_value (some v) v.length = some m ∧ m ∈ v ∧ ∀ x ∈ v, x ≤ m := by
  cases v with
  | nil => exact absurd rfl hv
  | cons x0 rest =>
    refine ⟨scan_max x0 rest, ?_, ?_, ?_⟩
    · have := max_loop_eq_scan (x0 :: rest) rest.length 1 x0 (by simp; omega)
      simpa [max_value] using this
    · rcases scan_max_mem rest x0 with h | h
      · rw [h]; exact List.mem_cons_self _ _
      · exact List.mem_cons_of_mem _ h
    · intro x hx
      obtain ⟨h1, h2⟩ := scan_max_ge rest x0
      rcases List.mem_cons.mp hx with rfl | hx
      · exact h1
      · exact h2 x hx

theorem copy_loop_spec (inp : List α) :
    ∀ (k i : Nat) (d : List α), d.length = inp.length → i + k = inp.length →
      (∀ j, j < i → d[j]? = inp[j]?) →
      copy_loop (some inp) k i (some d) = some (some inp) := by
  intro k
  induction k with
  | zero =>
    intro i d hl hk hpre
    have : d = inp := by
      apply List.ext_getElem? 
      intro j
      by_cases hj : j < i
      · exact hpre j hj
      · rw [List.getElem?_eq_none (by omega), List.getElem?_eq_none (by omega)]
    simp [copy_loop, this]
  | succ k ih =>
    intro i d hl hk hpre
    have hi : i < inp.length := by omega
    have hid : i < d.length := by omega
    simp only [copy_loop, List.getElem?_eq_getElem hi, hid, if_true]
    apply ih (i + 1) (d.set i inp[i]) (by simp [hl]) (by omega)
    intro j hj
    rw [List.getElem?_set]
    by_cases hji : i = j
    · subst hji
      simp [hid, List.getElem?_eq_getElem hi]
    · simp only [hji, if_false]
      exact hpre j (by omega)

theorem read_items_length (long_as_double : Int → α) :
    ∀ (items : List (PyObj α)) (v : List α),
      read_items long_as_double items = some v → v.length = items.length := by
  intro items
  induction items with
  | nil => intro v h; simp [read_items] at h; simp [← h]
  | cons it rest ih =>
    intro v h
    cases it with
    | long n =>
      simp only [read_items, Option.map_eq_some'] at h
      obtain ⟨w, hw, rfl⟩ := h
      simp [ih w hw]
    | float x =>
      simp only [read_items, Option.map_eq_some'] at h
      obtain ⟨w, hw, rfl⟩ := h
      simp [ih w hw]
    | other => simp [read_items] at h

theorem calloc_natCast (n : Nat) :
    (calloc (n : Int) : Ptr α) = some (List.replicate n 0) := by
  simp [calloc]

theorem test_data_clear (s : DataState α) (p : Ptr α) (k : Int) :
    test_data s p k 3 = some (⟨0, none⟩, none) := by
  simp [test_data]

/-- A set into a store without a fixed length takes the sequence over. -/
theorem test_data_set_unsized (d : Ptr α) (v : List α) :
    test_data (⟨0, d⟩ : DataState α) (some v) v.length 1
      = some (⟨v.length, some v⟩, some v) := by
  have hc := copy_loop_spec v v.length 0 (List.replicate v.length (0 : α))
    (by simp) (by simp) (by intro j hj; omega)
  simp [test_data, calloc_natCast, hc]

/-- The clear at the start of `test_set_data` leaves an empty store when the flag is set. -/
theorem test_set_data_list_ok (long_as_double : Int → α) (s : TestState α)
    (items : List (PyObj α)) (v : List α)
    (hs : s.has_data = 1 ∨ s.store.old_size = 0)
    (hread : read_items long_as_double items = some v) :
    test_set_data long_as_double s (SetArg.list items)
      = some (⟨1, v.length, ⟨v.length, some v⟩⟩, none) := by
  have hlen := read_items_length long_as_double items v hread
  have hset : ∀ d : Ptr α, test_data (⟨0, d⟩ : DataState α) (some v) (items.length : Int) 1
      = some (⟨v.length, some v⟩, some v) := by
    intro d
    rw [← hlen]
    exact test_data_set_unsized d v
  by_cases h1 : s.has_data = 1
  · simp [test_set_data, h1, test_data_clear, hread, hset, hlen]
  · have h0 : s.store.old_size = 0 := by
      rcases hs with h | h
      · exact absurd h h1
      · exact h
    obtain ⟨hd, ls, ⟨os, d⟩⟩ := s
    simp only at h0 h1
    subst h0
    simp [test_set_data, h1, hread, hset, hlen]

theorem test_set_data_fails (long_as_double : Int → α) (s s1 : TestState α) (arg : SetArg α)
    (e : TestError) (hs : Synced s) (harg : arg ≠ SetArg.not_list)
    (h : test_set_data long_as_double s arg = some (s1, some e)) :
    s1.has_data = 0 ∧ s1.store = DataState.init := by
  cases arg with
  | not_list => exact absurd rfl harg
  | bad =>
    rcases hs with ⟨h0, hst⟩ | ⟨h1, _⟩
    · simp [test_set_data, h0] at h
      rw [← h.1]; exact ⟨h0, hst⟩
    · simp [test_set_data, h1, test_data] at h
      rw [← h.1]; exact ⟨rfl, rfl⟩
  | list items =>
    cases hr : read_items long_as_double items with
    | some v =>
      have hok := test_set_data_list_ok long_as_double s items v
        (by rcases hs with ⟨_, hst⟩ | ⟨h1, _⟩
            · right; rw [hst]; rfl
            · left; exact h1) hr
      rw [hok] at h
      simp at h
    | none =>
      rcases hs with ⟨h0, hst⟩ | ⟨h1, _⟩
      · simp [test_set_data, h0, hr] at h
        rw [← h.1]; exact ⟨rfl, hst⟩
      · simp [test_set_data, h1, test_data, hr] at h
        rw [← h.1]; exact ⟨rfl, rfl⟩

theorem test_set_data_synced (long_as_double : Int → α) (s s1 : TestState α) (arg : SetArg α)
    (e : Option TestError) (hs : Synced s) (harg : arg ≠ SetArg.not_list)
    (h : test_set_data long_as_double s arg = some (s1, e)) : Synced s1 := by
  cases e with
  | some e => exact Or.inl (test_set_data_fails long_as_double s s1 arg e hs harg h)
  | none =>
    cases arg with
    | not_list => exact absurd rfl harg
    | bad =>
      rcases hs with ⟨h0, _⟩ | ⟨h1, _⟩
      · simp [test_set_data, h0] at h
      · simp [test_set_data, h1, test_data] at h
    | list items =>
      cases hr : read_items long_as_double items with
      | some v =>
        have hok := test_set_data_list_ok long_as_double s items v
          (by rcases hs with ⟨_, hst⟩ | ⟨h1, _⟩
              · right; rw [hst]; rfl
              · left; exact h1) hr
        rw [hok] at h
        simp only [Option.some.injEq, Prod.mk.injEq, and_true] at h
        subst h
        exact Or.inr ⟨rfl, v, rfl, rfl⟩
      | none =>
        rcases hs with ⟨h0, _⟩ | ⟨h1, _⟩
        · simp [test_set_data, h0, hr] at h
        · simp [test_set_data, h1, test_data, hr] at h

theorem test_get_max_state (s s1 : TestState α) (r : MaxResult α)
    (h : test_get_max s = some (s1, r)) : s1 = s := by
  by_cases h0 : s.has_data = 0
  · simp [test_get_max, h0] at h
    exact h.1.symm
  · simp [test_get_max, h0, test_data] at h
    exact h.1.symm

theorem reachable_synced (long_as_double : Int → α) (s : TestState α)
    (h : Reachable long_as_double s) : Synced s := by
  induction h with
  | init => exact Or.inl ⟨rfl, rfl⟩
  | set_data s s1 arg e _ harg hstep ih =>
    exact test_set_data_synced long_as_double s s1 arg e ih harg hstep
  | get_max s s1 r _ hstep ih => rw [test_get_max_state s s1 r hstep]; exact ih

theorem unset_has_no_data (long_as_double : Int → α) (s : TestState α)
    (h : Unset long_as_double s) : s.has_data = 0 := by
  induction h with
  | init => rfl
  | failed_set s s1 arg e hr harg hstep =>
    exact (test_set_data_fails long_as_double s s1 arg e
      (reachable_synced long_as_double s hr) harg hstep).1
  | get_max s s1 r _ hstep ih => rw [test_get_max_state s s1 r hstep]; exact ih

end Lemmas

/-! ## The buffer store -/

section Store

variable {α : Type} [LinearOrder α] [Zero α]

/-- C1: for every non-empty sequence `v` of numbers (the values the element loop reads from
the list passed), `max_value(v, len v)` returns the maximum of `v` (an element of `v` that
every element of `v` is less than or equal to); `test_set_data` on an empty store followed
by `test_get_max` returns that maximum, and so does `set_data` followed by `get_max` in
`spi.c`. -/
theorem set_then_max_is_maximum (long_as_double : Int → α) (s : TestState α)
    (t : SpiState α) (items : List (PyObj α)) (v : List α)
    (hread : read_items long_as_double items = some v) (hv : v ≠ [])
    (hs : s.store = DataState.init) :
    ∃ m, (m ∈ v ∧ ∀ x ∈ v, x ≤ m) ∧
      max_value (some v) v.length = some m ∧
      (∃ s1, test_set_data long_as_double s (SetArg.list items) = some (s1, none) ∧
        test_get_max s1 = some (s1, MaxResult.returned (some m))) ∧
      (∃ t1, Spi.set_data long_as_double t (SetArg.list items) = some t1 ∧
        Spi.get_max t1 = m) := by
  obtain ⟨m, hm, hmem, hle⟩ := max_value_spec v hv
  have hlen := read_items_length long_as_double items v hread
  refine ⟨m, ⟨hmem, hle⟩, hm, ?_, ?_⟩
  · refine ⟨⟨1, v.length, ⟨v.length, some v⟩⟩, ?_, ?_⟩
    · exact test_set_data_list_ok long_as_double s items v (Or.inr (by rw [hs]; rfl)) hread
    · simp [test_get_max, test_data, hm]
  · refine ⟨⟨m, items.length⟩, ?_, rfl⟩
    simp only [Spi.set_data, hread]
    rw [← hlen, hm]
    rfl

/-- Witness of C1: the list `[3, 7.0, 2]` set into the store at module load. -/
theorem set_then_max_is_maximum_witness :
    read_items id [PyObj.long 3, PyObj.float 7, PyObj.long 2] = some [(3 : Int), 7, 2] ∧
    ([(3 : Int), 7, 2] ≠ []) ∧
    (TestState.init : TestState Int).store = DataState.init ∧
    ∃ m, (m ∈ [(3 : Int), 7, 2] ∧ ∀ x ∈ [(3 : Int), 7, 2], x ≤ m) ∧
      max_value (some [(3 : Int), 7, 2]) [(3 : Int), 7, 2].length = some m ∧
      (∃ s1, test_set_data id TestState.init
          (SetArg.list [PyObj.long 3, PyObj.float 7, PyObj.long 2]) = some (s1, none) ∧
        test_get_max s1 = some (s1, MaxResult.returned (some m))) ∧
      (∃ t1, Spi.set_data id SpiState.init
          (SetArg.list [PyObj.long 3, PyObj.float 7, PyObj.long 2]) = some t1 ∧
        Spi.get_max t1 = m) :=
  ⟨rfl, by decide, rfl,
    set_then_max_is_maximum id TestState.init SpiState.init
      [PyObj.long 3, PyObj.float 7, PyObj.long 2] [3, 7, 2] rfl (by decide) rfl⟩

/-- C3: a size-mismatched set leaves the store unchanged: in a state with a fixed length
`n > 0` and any contents, `test_data(input, m, 1)` with `m ≠ n` leaves the fixed length and
the buffer exactly as they were (and returns the unchanged buffer). -/
theorem size_mismatch_leaves_store (s : DataState α) (input_data : Ptr α) (m : Int)
    (hn : 0 < s.old_size) (hm : m ≠ s.old_size) :
    test_data s input_data m 1 = some (s, s.data) := by
  have h0 : s.old_size ≠ 0 := by omega
  simp [test_data, h0, hm]

/-- Witness of C3: a store holding `[3, 7, 2]` is given a sequence of length 2. -/
theorem size_mismatch_leaves_store_witness :
    0 < (⟨3, some [3, 7, 2]⟩ : DataState Int).old_size ∧
    2 ≠ (⟨3, some [3, 7, 2]⟩ : DataState Int).old_size ∧
    test_data (⟨3, some [3, 7, 2]⟩ : DataState Int) (some [3, 7]) 2 1
      = some (⟨3, some [3, 7, 2]⟩, some [3, 7, 2]) :=
  ⟨by decide, by decide,
    size_mismatch_leaves_store ⟨3, some [3, 7, 2]⟩ (some [3, 7]) 2 (by decide) (by decide)⟩

/-- C4: at the failing input, `set_data(5)` at module load followed by `get_max()`, the
object is not a list: `list_size` is `-1`, `has_data` is set to 1, `test_data` fixes
`old_size = -1` and returns the `NULL` of the failed `calloc`, and the set fails with "Data
could not be set". With no successful set so far `test_get_max` still skips the "No data"
branch and calls `max_value(NULL, -1)`, whose first statement reads through `NULL`. -/
theorem get_max_after_failed_set :
    test_set_data id (TestState.init : TestState Int) SetArg.not_list
      = some (⟨1, -1, ⟨-1, none⟩⟩, some TestError.could_not_be_set) ∧
    test_get_max (⟨1, -1, ⟨-1, none⟩⟩ : TestState Int)
      = some (⟨1, -1, ⟨-1, none⟩⟩, MaxResult.returned none) ∧
    max_value (none : Ptr Int) (-1) = none := by
  refine ⟨?_, ?_, ?_⟩ <;> decide

/-- With list arguments only: in every state of `test.c` reached without a successful set
since module load or since the last clear, `test_get_max` takes the error branch: it sets
the error "No data", returns no number, does not call `max_value` and leaves the state as it
is. -/
theorem get_max_without_data (long_as_double : Int → α) (s : TestState α)
    (h : Unset long_as_double s) :
    test_get_max s = some (s, MaxResult.error TestError.no_data) := by
  simp [test_get_max, unset_has_no_data long_as_double s h]

/-- An instance of `get_max_without_data`: the state left by a set of `[3, "x"]` that
follows a set of `[3, 7]`. -/
theorem get_max_without_data_witness :
    Unset id (⟨0, 2, DataState.init⟩ : TestState Int) ∧
    test_get_max (⟨0, 2, DataState.init⟩ : TestState Int)
      = some (⟨0, 2, DataState.init⟩, MaxResult.error TestError.no_data) :=
  have hu : Unset id (⟨0, 2, DataState.init⟩ : TestState Int) :=
    Unset.failed_set ⟨1, 2, ⟨2, some [3, 7]⟩⟩ _ (SetArg.list [PyObj.long 3, PyObj.other])
      TestError.not_float_or_int
      (Reachable.set_data TestState.init _ (SetArg.list [PyObj.long 3, PyObj.float 7]) none
        Reachable.init (by decide) (by decide))
      (by decide) (by decide)
  ⟨hu, get_max_without_data id _ hu⟩

/-- C5: clear (`test_data` with option 3) succeeds in every state and leaves the store as
it is at module load (`old_size = 0`, `data = NULL`); clearing again gives the same state;
and a set that follows a clear is accepted for a sequence of any length and stores exactly
that sequence. -/
theorem clear_resets_store (s : DataState α) (p q : Ptr α) (k j : Int) (v : List α) :
    ∃ s1, test_data s p k 3 = some (s1, none) ∧ s1 = DataState.init ∧
      test_data s1 q j 3 = some (s1, none) ∧
      test_data s1 (some v) v.length 1 = some (⟨v.length, some v⟩, some v) := by
  refine ⟨DataState.init, ?_, rfl, ?_, ?_⟩
  · simp [test_data, DataState.init]
  · simp [test_data, DataState.init]
  · exact test_data_set_unsized none v

end Store

/-! ## The player rank -/

theorem wrap_long_of_fits (x : Int) (h0 : LONG_MIN ≤ x) (h1 : x ≤ LONG_MAX) :
    wrap_long x = x := by
  simp only [wrap_long, LONG_MIN, LONG_MAX] at *
  norm_num at *
  omega

theorem wrap_long_range (x : Int) : LONG_MIN ≤ wrap_long x ∧ wrap_long x ≤ LONG_MAX := by
  simp only [wrap_long, LONG_MIN, LONG_MAX]
  norm_num
  omega

theorem PyLong_AsLong_of_fits (n : Int) (h0 : LONG_MIN ≤ n) (h1 : n ≤ LONG_MAX) :
    PyLong_AsLong n = n := by
  simp [PyLong_AsLong, h0, h1]

theorem PyLong_AsLong_nonneg (n : Int) (h : PyLong_AsLong n ≥ 0) : 0 ≤ n := by
  unfold PyLong_AsLong at h
  split_ifs at h with hfit
  · exact h
  · omega

theorem PyLong_AsLong_nonneg_iff (n : Int) :
    PyLong_AsLong n ≥ 0 ↔ 0 ≤ n ∧ n ≤ LONG_MAX := by
  unfold PyLong_AsLong
  split_ifs with hfit
  · constructor
    · intro h; exact ⟨h, hfit.2⟩
    · intro h; exact h.1
  · constructor
    · intro h; omega
    · intro h
      exact absurd ⟨by simp only [LONG_MIN]; omega, h.2⟩ hfit

theorem init_tier_keeps_rank (p : Player) (tier : Option PyVal) :
    (init_tier p tier).1.rank = p.rank ∧
    (init_tier p tier).2 ≠ InitResult.rank_must_be_unsigned_long := by
  unfold init_tier
  split <;> simp

/-- Stored through the address of a long that holds 1, an int leaves its value modulo
`2^32` in the long. -/
theorem store_int_in_long_one (n : Int) : store_int_in_long 1 n = n % 2 ^ 32 := by
  simp only [store_int_in_long, wrap_long]
  norm_num
  omega

/-- The high four bytes of the long are kept: an int 0 stored into a long that holds `-1`
leaves `-2^32`, and an int `-1` stored into a long that holds 1 leaves `2^32 - 1`. -/
theorem store_int_in_long_keeps_high_bytes :
    store_int_in_long (-1) 0 = -4294967296 ∧ store_int_in_long 1 (-1) = 4294967295 ∧
    store_int_in_long 1 7 = 7 := by
  refine ⟨?_, ?_, ?_⟩ <;> decide

/-- An amount from 0 to `INT_MAX` reaches the long as it is. -/
theorem parse_opt_int_nonneg (a : Int) (h0 : 0 ≤ a) (h1 : a ≤ INT_MAX) :
    parse_opt_int [PyVal.long a] 1 = some a := by
  have hmin : INT_MIN ≤ a := by simp only [INT_MIN]; omega
  have hmod : a % 4294967296 = a := by
    simp only [INT_MAX] at h1
    norm_num at h1
    omega
  simp [parse_opt_int, hmin, h1, store_int_in_long_one, hmod]

/-- A negative amount that fits a C `int` reaches the long as `a + 2^32`. -/
theorem parse_opt_int_negative (a : Int) (h0 : INT_MIN ≤ a) (h1 : a < 0) :
    parse_opt_int [PyVal.long a] 1 = some (a + 2 ^ 32) := by
  have hmax : a ≤ INT_MAX := by simp only [INT_MAX]; omega
  have hmod : a % 2 ^ 32 = a + 2 ^ 32 := by
    simp only [INT_MIN] at h0
    norm_num at h0 ⊢
    omega
  simp only [parse_opt_int, h0, hmax, and_self, if_true, store_int_in_long_one, hmod]

/-- An amount that does not fit a C `int` is refused by the parser. -/
theorem parse_opt_int_out_of_range (a dflt : Int) (h : a < INT_MIN ∨ INT_MAX < a) :
    parse_opt_int [PyVal.long a] dflt = none := by
  have : ¬ (INT_MIN ≤ a ∧ a ≤ INT_MAX) := by
    rintro ⟨h0, h1⟩
    rcases h with h | h <;> omega
  simp [parse_opt_int, this]

/-- Whatever the arguments, the long the parser leaves behind holds a value from 0 to
`2^32 - 1`. -/
theorem parse_opt_int_range (arg : List PyVal) (d : Int)
    (h : parse_opt_int arg 1 = some d) : 0 ≤ d ∧ d < 2 ^ 32 := by
  unfold parse_opt_int at h
  split at h
  · simp only [Option.some.injEq] at h
    subst h
    norm_num
  · split_ifs at h
    simp only [Option.some.injEq, store_int_in_long_one] at h
    subst h
    norm_num
    omega
  · exact absurd h (by simp)

/-- Counterexample to C6: a player of rank `2^31` (a value `Player_setrank` accepts) is asked
to decrease by `2^31`. The candidate is `0`, but the amount does not fit the C `int` the
argument is parsed as: nothing is printed and the rank stays `2^31`. And a player of rank 5
asked to decrease by `-1` keeps rank 5 instead of getting `5 - (-1) = 6`: the long
`rank_dec` holds `2^32 - 1` and the candidate `5 - (2^32 - 1)` is negative. -/
theorem decrease_rank_amount_out_of_range :
    Player_setrank Player_new (some (PyVal.long 2147483648))
      = (⟨"", 2147483648, ""⟩, SetRankResult.ok) ∧
    Player_decrease_rank ⟨"", 2147483648, ""⟩ [PyVal.long 2147483648]
      = (⟨"", 2147483648, ""⟩, none) ∧
    (Player_decrease_rank ⟨"", 2147483648, ""⟩ [PyVal.long 2147483648]).1.rank
      ≠ 2147483648 - 2147483648 ∧
    Player_decrease_rank ⟨"", 5, ""⟩ [PyVal.long (-1)]
      = (⟨"", 5, ""⟩, some (-4294967290)) ∧
    (Player_decrease_rank ⟨"", 5, ""⟩ [PyVal.long (-1)]).1.rank ≠ 5 - (-1) := by
  refine ⟨?_, ?_, ?_, ?_, ?_⟩ <;> decide

/-- C6 (amended): for every rank `0 ≤ v ≤ LONG_MAX` and every amount `a` with
`0 ≤ a ≤ INT_MAX`, `Player_decrease_rank` computes `v - a`; when that is negative the rank
stays `v` (and the message is printed), otherwise the rank becomes `v - a`. An amount that
does not fit a C `int` is refused by the parser and leaves the rank as it is. So for
`0 ≤ v ≤ INT_MAX` a decrease by `v` yields `0`, and for `0 ≤ v < INT_MAX` a decrease by
`v + 1` is rejected and leaves `v`. -/
theorem decrease_rank_spec (self : Player) (a : Int)
    (hv0 : 0 ≤ self.rank) (hv1 : self.rank ≤ LONG_MAX) :
    (0 ≤ a → a ≤ INT_MAX → self.rank - a < 0 →
      Player_decrease_rank self [PyVal.long a] = (self, some (self.rank - a))) ∧
    (0 ≤ a → a ≤ INT_MAX → 0 ≤ self.rank - a →
      Player_decrease_rank self [PyVal.long a] = ({ self with rank := self.rank - a }, none)) ∧
    (a < INT_MIN ∨ INT_MAX < a →
      Player_decrease_rank self [PyVal.long a] = (self, none)) ∧
    (self.rank ≤ INT_MAX →
      Player_decrease_rank self [PyVal.long self.rank] = ({ self with rank := 0 }, none)) ∧
    (self.rank < INT_MAX →
      Player_decrease_rank self [PyVal.long (self.rank + 1)] = (self, some (-1))) := by
  have hmin : LONG_MIN ≤ self.rank := by
    simp only [LONG_MIN] at *; omega
  have hAs := PyLong_AsLong_of_fits self.rank hmin hv1
  have hw : ∀ d : Int, 0 ≤ d → d ≤ INT_MAX → wrap_long (self.rank - d) = self.rank - d := by
    intro d hd0 hd1
    apply wrap_long_of_fits
    · simp only [LONG_MIN, INT_MAX] at *; norm_num at *; omega
    · omega
  refine ⟨?_, ?_, ?_, ?_, ?_⟩
  · intro ha0 ha1 hneg
    simp [Player_decrease_rank, parse_opt_int_nonneg a ha0 ha1, hAs, hw a ha0 ha1, hneg]
  · intro ha0 ha1 hpos
    simp [Player_decrease_rank, parse_opt_int_nonneg a ha0 ha1, hAs, hw a ha0 ha1,
      not_lt.mpr hpos, PyLong_FromLong]
  · intro hout
    simp [Player_decrease_rank, parse_opt_int_out_of_range a 1 hout]
  · intro hle
    have hw0 : wrap_long 0 = 0 := by decide
    simp [Player_decrease_rank, parse_opt_int_nonneg self.rank hv0 hle, hAs, hw0,
      PyLong_FromLong]
  · intro hlt
    have hp := parse_opt_int_nonneg (self.rank + 1) (by omega) (by omega)
    have hw1 : wrap_long (-1) = -1 := by decide
    simp [Player_decrease_rank, hp, hAs, hw1]

/-- Witness of C6 (amended): at rank 2 a decrease by 3 is rejected, `-1` is printed and the
rank stays 2. -/
theorem decrease_rank_spec_witness :
    (0 : Int) ≤ (⟨"", 2, ""⟩ : Player).rank ∧ (⟨"", 2, ""⟩ : Player).rank ≤ LONG_MAX ∧
    (0 : Int) ≤ 3 ∧ (3 : Int) ≤ INT_MAX ∧ (⟨"", 2, ""⟩ : Player).rank - 3 < 0 ∧
    Player_decrease_rank ⟨"", 2, ""⟩ [PyVal.long 3] = (⟨"", 2, ""⟩, some (-1)) :=
  ⟨by decide, by decide, by decide, by decide, by decide,
    (decrease_rank_spec ⟨"", 2, ""⟩ 3 (by decide) (by decide)).1 (by decide) (by decide)
      (by decide)⟩

/-- What `Player_decrease_rank` does with a negative amount `a` that fits a C `int`: the
long `rank_dec` holds `a + 2^32`, and the candidate is `v - (a + 2^32)`. -/
theorem decrease_rank_negative_amount (self : Player) (a : Int)
    (hv0 : 0 ≤ self.rank) (hv1 : self.rank ≤ LONG_MAX) (ha0 : INT_MIN ≤ a) (ha1 : a < 0) :
    (self.rank - (a + 2 ^ 32) < 0 →
      Player_decrease_rank self [PyVal.long a] = (self, some (self.rank - (a + 2 ^ 32)))) ∧
    (0 ≤ self.rank - (a + 2 ^ 32) →
      Player_decrease_rank self [PyVal.long a]
        = ({ self with rank := self.rank - (a + 2 ^ 32) }, none)) := by
  have hmin : LONG_MIN ≤ self.rank := by
    simp only [LONG_MIN] at *; omega
  have hAs := PyLong_AsLong_of_fits self.rank hmin hv1
  have hw : wrap_long (self.rank - (a + 2 ^ 32)) = self.rank - (a + 2 ^ 32) := by
    apply wrap_long_of_fits
    · simp only [LONG_MIN, INT_MIN] at *; norm_num at *; omega
    · simp only [LONG_MAX, INT_MIN] at *; norm_num at *; omega
  refine ⟨?_, ?_⟩
  · intro hneg
    norm_num at hw hneg
    simp [Player_decrease_rank, parse_opt_int_negative a ha0 ha1, hAs, hw, hneg]
  · intro hpos
    norm_num at hw hpos
    simp [Player_decrease_rank, parse_opt_int_negative a ha0 ha1, hAs, hw, hpos,
      PyLong_FromLong]

/-- Counterexample to C7: a player of rank `LONG_MAX`, a value `Player_setrank` accepts, is
asked to increase its rank by 1: the C `long` addition wraps around and the rank becomes
`LONG_MIN`, which is negative. -/
theorem increase_rank_wraps_below_zero :
    Player_setrank Player_new (some (PyVal.long 9223372036854775807))
      = (⟨"", 9223372036854775807, ""⟩, SetRankResult.ok) ∧
    (0 : Int) ≤ (⟨"", 9223372036854775807, ""⟩ : Player).rank ∧
    (Player_increase_rank ⟨"", 9223372036854775807, ""⟩ [PyVal.long 1]).rank
      = -9223372036854775808 ∧
    (Player_increase_rank ⟨"", 9223372036854775807, ""⟩ [PyVal.long 1]).rank < 0 := by
  refine ⟨?_, ?_, ?_, ?_⟩ <;> decide

/-- C7 (amended): the rank is 0 after `Player_new`, and from a rank `0 ≤ v ≤ LONG_MAX`
`Player_init`, `Player_setrank` and `Player_decrease_rank` leave a rank in that range for
every argument; `Player_increase_rank` does so for every argument for which the sum of the
rank and the amount the parser leaves in `rank_inc` does not exceed `LONG_MAX`. -/
theorem rank_nonneg_kept (self : Player) (h0 : 0 ≤ self.rank) (h1 : self.rank ≤ LONG_MAX) :
    Player_new.rank = 0 ∧
    (∀ args, 0 ≤ (Player_init self args).1.rank ∧
      (Player_init self args).1.rank ≤ LONG_MAX) ∧
    (∀ value, 0 ≤ (Player_setrank self value).1.rank ∧
      (Player_setrank self value).1.rank ≤ LONG_MAX) ∧
    (∀ arg, 0 ≤ (Player_decrease_rank self arg).1.rank ∧
      (Player_decrease_rank self arg).1.rank ≤ LONG_MAX) ∧
    (∀ arg, (∀ d, parse_opt_int arg 1 = some d → self.rank + d ≤ LONG_MAX) →
      0 ≤ (Player_increase_rank self arg).rank ∧
      (Player_increase_rank self arg).rank ≤ LONG_MAX) := by
  have hmin : LONG_MIN ≤ self.rank := by
    simp only [LONG_MIN] at *; omega
  have hAs := PyLong_AsLong_of_fits self.rank hmin h1
  refine ⟨rfl, ?_, ?_, ?_, ?_⟩
  · intro args
    have htier : ∀ (p : Player) (tier : Option PyVal), 0 ≤ p.rank ∧ p.rank ≤ LONG_MAX →
        0 ≤ (init_tier p tier).1.rank ∧ (init_tier p tier).1.rank ≤ LONG_MAX := by
      intro p tier hp
      rw [(init_tier_keeps_rank p tier).1]
      exact hp
    have hrank : ∀ (p : Player) (rank tier : Option PyVal), 0 ≤ p.rank ∧ p.rank ≤ LONG_MAX →
        0 ≤ (init_rank p rank tier).1.rank ∧ (init_rank p rank tier).1.rank ≤ LONG_MAX := by
      intro p rank tier hp
      unfold init_rank
      split
      · exact htier p tier hp
      · split_ifs with hn
        · exact htier _ tier ((PyLong_AsLong_nonneg_iff _).mp hn)
        · exact hp
      · exact hp
    unfold Player_init
    split
    · exact ⟨h0, h1⟩
    · split
      · exact hrank self _ _ ⟨h0, h1⟩
      · exact hrank _ _ _ ⟨h0, h1⟩
      · exact ⟨h0, h1⟩
  · intro value
    unfold Player_setrank
    split
    · exact ⟨h0, h1⟩
    · split_ifs with hn
      · exact (PyLong_AsLong_nonneg_iff _).mp hn
      · exact ⟨h0, h1⟩
    · exact ⟨h0, h1⟩
  · intro arg
    unfold Player_decrease_rank
    simp only
    split
    · exact ⟨h0, h1⟩
    · split_ifs with hn
      · exact ⟨h0, h1⟩
      · exact ⟨not_lt.mp hn, (wrap_long_range _).2⟩
  · intro arg hsum
    unfold Player_increase_rank
    simp only
    split
    · exact ⟨h0, h1⟩
    · rename_i d hd
      have hd0 := (parse_opt_int_range arg d hd).1
      have hle := hsum d hd
      have hw : wrap_long (self.rank + d) = self.rank + d :=
        wrap_long_of_fits _ (by omega) hle
      simp only [PyLong_FromLong, hAs, hw]
      exact ⟨by omega, hle⟩

/-- Witness of C7 (amended): at rank 5 an increase by `-1` and a decrease by 7 leave a rank
that is not negative. -/
theorem rank_nonneg_kept_witness :
    (0 : Int) ≤ (⟨"", 5, ""⟩ : Player).rank ∧ (⟨"", 5, ""⟩ : Player).rank ≤ LONG_MAX ∧
    0 ≤ (Player_increase_rank ⟨"", 5, ""⟩ [PyVal.long (-1)]).rank ∧
    0 ≤ (Player_decrease_rank ⟨"", 5, ""⟩ [PyVal.long 7]).1.rank :=
  ⟨by decide, by decide,
    ((rank_nonneg_kept ⟨"", 5, ""⟩ (by decide) (by decide)).2.2.2.2 [PyVal.long (-1)]
      (fun d hd => by
        have hp : parse_opt_int [PyVal.long (-1)] 1 = some 4294967295 := by decide
        rw [hp] at hd
        cases hd
        decide)).1,
    ((rank_nonneg_kept ⟨"", 5, ""⟩ (by decide) (by decide)).2.2.2.1 [PyVal.long 7]).1⟩

/-- Counterexample to C8: an increase by `2^31` at rank 0 leaves the rank at 0 (the amount
does not fit the C `int` the argument is parsed as); an increase by 1 at rank `LONG_MAX`
gives `LONG_MIN`, not `LONG_MAX + 1`; and an increase by `-1` at rank 5 gives
`5 + (2^32 - 1)`, not `5 + (-1)`. -/
theorem increase_rank_refused_or_wraps :
    Player_increase_rank ⟨"", 0, ""⟩ [PyVal.long 2147483648] = ⟨"", 0, ""⟩ ∧
    (Player_increase_rank ⟨"", 0, ""⟩ [PyVal.long 2147483648]).rank ≠ 0 + 2147483648 ∧
    (Player_increase_rank ⟨"", LONG_MAX, ""⟩ [PyVal.long 1]).rank = LONG_MIN ∧
    (Player_increase_rank ⟨"", LONG_MAX, ""⟩ [PyVal.long 1]).rank ≠ LONG_MAX + 1 ∧
    (Player_increase_rank ⟨"", 5, ""⟩ [PyVal.long (-1)]).rank = 4294967300 ∧
    (Player_increase_rank ⟨"", 5, ""⟩ [PyVal.long (-1)]).rank ≠ 5 + (-1) := by
  refine ⟨?_, ?_, ?_, ?_, ?_, ?_⟩ <;> decide

/-- C8 (amended): for every rank `0 ≤ v ≤ LONG_MAX` and every amount `a` with
`0 ≤ a ≤ INT_MAX` and `v + a ≤ LONG_MAX`, `Player_increase_rank` sets the rank to exactly
`v + a`. An amount that does not fit a C `int` is refused by the parser and leaves the rank
as it is. -/
theorem increase_rank_spec (self : Player) (a : Int)
    (hv0 : 0 ≤ self.rank) (hv1 : self.rank ≤ LONG_MAX) :
    (0 ≤ a → a ≤ INT_MAX → self.rank + a ≤ LONG_MAX →
      Player_increase_rank self [PyVal.long a] = { self with rank := self.rank + a }) ∧
    (a < INT_MIN ∨ INT_MAX < a → Player_increase_rank self [PyVal.long a] = self) := by
  have hmin : LONG_MIN ≤ self.rank := by
    simp only [LONG_MIN] at *; omega
  have hAs := PyLong_AsLong_of_fits self.rank hmin hv1
  refine ⟨?_, ?_⟩
  · intro ha0 ha1 hsum
    have hw := wrap_long_of_fits (self.rank + a) (by omega) hsum
    simp [Player_increase_rank, parse_opt_int_nonneg a ha0 ha1, hAs, hw, PyLong_FromLong]
  · intro hout
    simp [Player_increase_rank, parse_opt_int_out_of_range a 1 hout]

/-- Witness of C8 (amended): at rank 0 an increase by 5 gives rank 5. -/
theorem increase_rank_spec_witness :
    (0 : Int) ≤ (⟨"", 0, ""⟩ : Player).rank ∧ (⟨"", 0, ""⟩ : Player).rank ≤ LONG_MAX ∧
    (0 : Int) ≤ 5 ∧ (5 : Int) ≤ INT_MAX ∧ (⟨"", 0, ""⟩ : Player).rank + 5 ≤ LONG_MAX ∧
    Player_increase_rank ⟨"", 0, ""⟩ [PyVal.long 5] = ⟨"", 5, ""⟩ :=
  ⟨by decide, by decide, by decide, by decide, by decide,
    (increase_rank_spec ⟨"", 0, ""⟩ 5 (by decide) (by decide)).1 (by decide) (by decide)
      (by decide)⟩

/-- What `Player_increase_rank` does with a negative amount `a` that fits a C `int`: the
long `rank_inc` holds `a + 2^32`, and without overflow the rank becomes `v + a + 2^32`. -/
theorem increase_rank_negative_amount (self : Player) (a : Int)
    (hv0 : 0 ≤ self.rank) (hv1 : self.rank ≤ LONG_MAX) (ha0 : INT_MIN ≤ a) (ha1 : a < 0)
    (hsum : self.rank + (a + 2 ^ 32) ≤ LONG_MAX) :
    Player_increase_rank self [PyVal.long a]
      = { self with rank := self.rank + (a + 2 ^ 32) } := by
  have hmin : LONG_MIN ≤ self.rank := by
    simp only [LONG_MIN] at *; omega
  have hAs := PyLong_AsLong_of_fits self.rank hmin hv1
  have hw : wrap_long (self.rank + (a + 2 ^ 32)) = self.rank + (a + 2 ^ 32) := by
    apply wrap_long_of_fits _ _ hsum
    simp only [LONG_MIN, INT_MIN] at *; norm_num at *; omega
  norm_num at hw
  simp [Player_increase_rank, parse_opt_int_negative a ha0 ha1, hAs, hw, PyLong_FromLong]

/-! ## The empty sequence -/

section EmptySequence

variable {α : Type} [LinearOrder α] [Zero α]

/-- Counterexample to C9: after a set with the empty sequence on the store at module load,
a set with `[5]` is accepted: the store then has length 1 and holds `[5]`. -/
theorem empty_set_then_set_accepted :
    test_data (DataState.init : DataState Int) (some []) 0 1 = some (⟨0, some []⟩, some []) ∧
    test_data (⟨0, some []⟩ : DataState Int) (some [5]) 1 1
      = some (⟨1, some [5]⟩, some [5]) := by
  refine ⟨?_, ?_⟩ <;> decide

/-- C9 (amended): an empty sequence is a legal input that leaves the store without a fixed
length (`old_size` stays 0): after a set with an empty sequence on the store at module load
or after a clear, a following set with a sequence of any length is accepted, fixes the
length at that length and stores the sequence. -/
theorem empty_set_leaves_length_unset (v : List α) :
    ∃ s1 : DataState α, test_data DataState.init (some []) 0 1 = some (s1, some []) ∧
      s1.old_size = 0 ∧
      test_data s1 (some v) v.length 1 = some (⟨v.length, some v⟩, some v) := by
  refine ⟨⟨0, some []⟩, ?_, rfl, test_data_set_unsized (some []) v⟩
  exact test_data_set_unsized none ([] : List α)

/-- C10: at the failing input, `test_set_data` is given the empty list at module load and
`test_get_max` is called next: the set raises no error and sets `has_data`, and
`test_get_max` does not take the error branch but calls `max_value` with `input_size` 0 on
the empty buffer, where reading element 0 has no defined value. -/
theorem get_max_after_empty_set :
    test_set_data id (TestState.init : TestState Int) (SetArg.list [])
      = some (⟨1, 0, ⟨0, some []⟩⟩, none) ∧
    test_get_max (⟨1, 0, ⟨0, some []⟩⟩ : TestState Int)
      = some (⟨1, 0, ⟨0, some []⟩⟩, MaxResult.returned none) ∧
    max_value (some ([] : List Int)) 0 = none := by
  refine ⟨?_, ?_, ?_⟩ <;> decide

end EmptySequence

/-! ## Writes of the rank from outside -/

/-- Counterexample to C11: `2^63` is an integer `≥ 0`, but `Player_setrank` and the rank
argument of `Player_init` refuse it (`PyLong_AsLong` gives `-1` for a value that does not
fit a C `long`). -/
theorem rank_write_refuses_large_int :
    (0 : Int) ≤ 9223372036854775808 ∧
    Player_setrank Player_new (some (PyVal.long 9223372036854775808))
      = (Player_new, SetRankResult.must_be_unsigned_long) ∧
    Player_init Player_new (some ⟨none, some (PyVal.long 9223372036854775808), none⟩)
      = (Player_new, InitResult.rank_must_be_unsigned_long) := by
  refine ⟨?_, ?_, ?_⟩ <;> decide

/-- C11 (amended): `Player_setrank` and the rank argument of `Player_init` (reached when
`name` is absent or a `str`) accept a value if and only if it is an integer `n` with
`0 ≤ n ≤ LONG_MAX`; an accepted value becomes the rank; a rejected value gives the error
result (`-1`, "rank must be unsigned long.") and leaves the stored rank as it was; a
deletion is refused with "Cannot delete the rank." and leaves the rank as it was. -/
theorem rank_write_validated (self : Player) (value : PyVal) (nm : Option String)
    (tier : Option PyVal) :
    ((Player_setrank self (some value)).2 = SetRankResult.ok ↔
      ∃ n, value = PyVal.long n ∧ 0 ≤ n ∧ n ≤ LONG_MAX) ∧
    (∀ n, value = PyVal.long n → 0 ≤ n → n ≤ LONG_MAX →
      Player_setrank self (some value) = ({ self with rank := n }, SetRankResult.ok)) ∧
    ((Player_setrank self (some value)).2 ≠ SetRankResult.ok →
      Player_setrank self (some value) = (self, SetRankResult.must_be_unsigned_long)) ∧
    ((Player_init self (some ⟨nm.map PyVal.str, some value, tier⟩)).2
        ≠ InitResult.rank_must_be_unsigned_long ↔
      ∃ n, value = PyVal.long n ∧ 0 ≤ n ∧ n ≤ LONG_MAX) ∧
    (∀ n, value = PyVal.long n → 0 ≤ n → n ≤ LONG_MAX →
      (Player_init self (some ⟨nm.map PyVal.str, some value, tier⟩)).1.rank = n) ∧
    ((Player_init self (some ⟨nm.map PyVal.str, some value, tier⟩)).2
        = InitResult.rank_must_be_unsigned_long →
      (Player_init self (some ⟨nm.map PyVal.str, some value, tier⟩)).1.rank = self.rank) ∧
    Player_setrank self none = (self, SetRankResult.cannot_delete) := by
  rw [← and_assoc, ← and_assoc, ← and_assoc, ← and_assoc, ← and_assoc]
  refine ⟨?_, rfl⟩
  simp only [and_assoc]
  have hinit :
      Player_init self (some ⟨nm.map PyVal.str, some value, tier⟩)
        = init_rank (match nm with | none => self | some t => { self with name := t })
            (some value) tier := by
    cases nm <;> rfl
  have hr : (match nm with | none => self | some t => { self with name := t }).rank
      = self.rank := by
    cases nm <;> rfl
  rw [hinit]
  clear hinit
  generalize (match nm with | none => self | some t => { self with name := t }) = q at hr ⊢
  cases value with
  | long n =>
    by_cases hfit : PyLong_AsLong n ≥ 0
    · have hn := (PyLong_AsLong_nonneg_iff n).mp hfit
      have ht := init_tier_keeps_rank { q with rank := n } tier
      simp only [Player_setrank, init_rank, hfit, if_true]
      refine ⟨?_, ?_, ?_, ?_, ?_, ?_⟩
      · simp [hn]
      · intro m hm _ _
        cases hm; rfl
      · intro h; exact absurd rfl h
      · simp [hn, ht.2]
      · intro m hm _ _
        cases hm; exact ht.1
      · intro h; exact absurd h ht.2
    · have hn : ¬ (0 ≤ n ∧ n ≤ LONG_MAX) := fun h => hfit ((PyLong_AsLong_nonneg_iff n).mpr h)
      simp only [Player_setrank, init_rank, hfit, if_false]
      refine ⟨?_, ?_, ?_, ?_, ?_, ?_⟩
      · simp; intro h; exact not_le.mp (fun h2 => hn ⟨h, h2⟩)
      · intro m hm h0 h1
        cases hm; exact absurd ⟨h0, h1⟩ hn
      · intro _; trivial
      · simp; intro h; exact not_le.mp (fun h2 => hn ⟨h, h2⟩)
      · intro m hm h0 h1
        cases hm; exact absurd ⟨h0, h1⟩ hn
      · intro _; exact hr
  | str t =>
    simp only [Player_setrank, init_rank]
    refine ⟨by simp, by simp, fun _ => trivial, by simp, by simp, fun _ => hr⟩
  | other =>
    simp only [Player_setrank, init_rank]
    refine ⟨by simp, by simp, fun _ => trivial, by simp, by simp, fun _ => hr⟩

/-- Witness of C11 (amended): the write of 7 to a new player is accepted by both paths, and
the deletion of the rank is refused with its own message. -/
theorem rank_write_validated_witness :
    Player_setrank Player_new (some (PyVal.long 7)) = (⟨"", 7, ""⟩, SetRankResult.ok) ∧
    (Player_init Player_new (some ⟨some (PyVal.str "ann"), some (PyVal.long 7), none⟩)).1.rank
      = 7 ∧
    Player_setrank Player_new none = (Player_new, SetRankResult.cannot_delete) :=
  ⟨(rank_write_validated Player_new (PyVal.long 7) none none).2.1 7 rfl (by decide)
      (by decide),
    (rank_write_validated Player_new (PyVal.long 7) (some "ann") none).2.2.2.2.1 7 rfl
      (by decide) (by decide),
    rfl⟩

/-! ## Rejected input and the synchronisation of flag, size and buffer -/

section Sync

variable {α : Type} [LinearOrder α] [Zero α]

theorem read_items_none_of_mem (long_as_double : Int → α) :
    ∀ items : List (PyObj α), PyObj.other ∈ items → read_items long_as_double items = none := by
  intro items
  induction items with
  | nil => intro h; simp at h
  | cons it rest ih =>
    intro h
    cases it with
    | long n =>
      have : PyObj.other ∈ rest := by simpa using h
      simp [read_items, ih this]
    | float x =>
      have : PyObj.other ∈ rest := by simpa using h
      simp [read_items, ih this]
    | other => simp [read_items]

/-- The call `test_data(input_data, list_size, 1)` of `test_set_data` works on the store
that `clear_if_has_data` leaves. -/
theorem test_set_data_after_clear (long_as_double : Int → α) (s : TestState α)
    (items : List (PyObj α)) (v : List α)
    (hread : read_items long_as_double items = some v) :
    test_set_data long_as_double s (SetArg.list items)
      = (clear_if_has_data s).bind fun s1 =>
          (test_data s1.store (some v) items.length 1).map fun r =>
            (⟨1, items.length, r.1⟩,
              if r.2.isNone then some TestError.could_not_be_set else none) := by
  unfold test_set_data clear_if_has_data
  generalize (if s.has_data = 1 then
      (test_data s.store none 0 3).map fun r => { s with has_data := 0, store := r.1 }
    else some s) = c
  cases c with
  | none => rfl
  | some s1 =>
    simp only [hread, Option.some_bind]
    cases test_data s1.store (some v) items.length 1 with
    | none => rfl
    | some r => rfl

theorem test_set_data_accepted (long_as_double : Int → α) (s s1 : TestState α)
    (arg : SetArg α) (hs : Synced s) (harg : arg ≠ SetArg.not_list)
    (h : test_set_data long_as_double s arg = some (s1, none)) :
    ∃ items v, arg = SetArg.list items ∧ read_items long_as_double items = some v ∧
      s1 = ⟨1, v.length, ⟨v.length, some v⟩⟩ := by
  have hpre : s.has_data = 1 ∨ s.store.old_size = 0 := by
    rcases hs with ⟨_, hst⟩ | ⟨h1, _⟩
    · right; rw [hst]; rfl
    · left; exact h1
  cases arg with
  | not_list => exact absurd rfl harg
  | bad =>
    rcases hs with ⟨h0, _⟩ | ⟨h1, _⟩
    · simp [test_set_data, h0] at h
    · simp [test_set_data, h1, test_data] at h
  | list items =>
    cases hr : read_items long_as_double items with
    | some v =>
      have hok := test_set_data_list_ok long_as_double s items v hpre hr
      rw [hok] at h
      simp only [Option.some.injEq, Prod.mk.injEq, and_true] at h
      exact ⟨items, v, rfl, hr, h.symm⟩
    | none =>
      rcases hs with ⟨h0, _⟩ | ⟨h1, _⟩
      · simp [test_set_data, h0, hr] at h
      · simp [test_set_data, h1, test_data, hr] at h

/-- Counterexample to C12: the store holds `[3, 7]` (after `set_data([3, 7.0])` at module
load) and `get_max` returns 7; `set_data([3, "x"])` sets the error, but the store is
cleared and `has_data` is 0, and `get_max` now fails with "No data". -/
theorem rejected_set_loses_data :
    test_set_data id (TestState.init : TestState Int)
        (SetArg.list [PyObj.long 3, PyObj.float 7])
      = some (⟨1, 2, ⟨2, some [3, 7]⟩⟩, none) ∧
    test_get_max (⟨1, 2, ⟨2, some [3, 7]⟩⟩ : TestState Int)
      = some (⟨1, 2, ⟨2, some [3, 7]⟩⟩, MaxResult.returned (some 7)) ∧
    test_set_data id (⟨1, 2, ⟨2, some [3, 7]⟩⟩ : TestState Int)
        (SetArg.list [PyObj.long 3, PyObj.other])
      = some (⟨0, 2, DataState.init⟩, some TestError.not_float_or_int) ∧
    test_get_max (⟨0, 2, DataState.init⟩ : TestState Int)
      = some (⟨0, 2, DataState.init⟩, MaxResult.error TestError.no_data) := by
  refine ⟨?_, ?_, ?_, ?_⟩ <;> decide

/-- C12 (amended): a set whose input contains an element that is neither an integer nor a
float never reaches `test_data(.., 1)`: `test_set_data` reports the error "Input is not a
float or int" and records the size of the list. A store that had data was cleared at the
start of the call (`has_data = 0`, no fixed length, no contents); without data the flag and
the store are unchanged. In both cases a following `test_get_max` fails with "No data". -/
theorem rejected_set_clears_store (long_as_double : Int → α) (s : TestState α)
    (items : List (PyObj α)) (hbad : PyObj.other ∈ items) :
    ∃ s1, test_set_data long_as_double s (SetArg.list items)
        = some (s1, some TestError.not_float_or_int) ∧
      s1.list_size = items.length ∧
      (s.has_data = 1 → s1.has_data = 0 ∧ s1.store = DataState.init) ∧
      (s.has_data ≠ 1 → s1.has_data = s.has_data ∧ s1.store = s.store) ∧
      (s.has_data = 0 ∨ s.has_data = 1 →
        test_get_max s1 = some (s1, MaxResult.error TestError.no_data)) := by
  have hread := read_items_none_of_mem long_as_double items hbad
  by_cases h1 : s.has_data = 1
  · refine ⟨⟨0, items.length, DataState.init⟩, ?_, rfl, fun _ => ⟨rfl, rfl⟩,
      fun h => absurd h1 h, fun _ => ?_⟩
    · simp [test_set_data, h1, test_data, hread, DataState.init]
    · simp [test_get_max]
  · refine ⟨{ s with list_size := items.length }, ?_, rfl, fun h => absurd h h1,
      fun _ => ⟨rfl, rfl⟩, fun h => ?_⟩
    · simp [test_set_data, h1, hread]
    · rcases h with h0 | h
      · simp [test_get_max, h0]
      · exact absurd h h1

/-- Witness of C12 (amended): `set_data([3, "x"])` on the store holding `[3, 7]`. -/
theorem rejected_set_clears_store_witness :
    PyObj.other ∈ [PyObj.long 3, (PyObj.other : PyObj Int)] ∧
    ∃ s1, test_set_data id (⟨1, 2, ⟨2, some [3, 7]⟩⟩ : TestState Int)
        (SetArg.list [PyObj.long 3, PyObj.other])
        = some (s1, some TestError.not_float_or_int) ∧
      s1.list_size = [PyObj.long 3, (PyObj.other : PyObj Int)].length ∧
      ((⟨1, 2, ⟨2, some [3, 7]⟩⟩ : TestState Int).has_data = 1 →
        s1.has_data = 0 ∧ s1.store = DataState.init) ∧
      ((⟨1, 2, ⟨2, some [3, 7]⟩⟩ : TestState Int).has_data ≠ 1 →
        s1.has_data = (⟨1, 2, ⟨2, some [3, 7]⟩⟩ : TestState Int).has_data ∧
        s1.store = (⟨1, 2, ⟨2, some [3, 7]⟩⟩ : TestState Int).store) ∧
      ((⟨1, 2, ⟨2, some [3, 7]⟩⟩ : TestState Int).has_data = 0 ∨
          (⟨1, 2, ⟨2, some [3, 7]⟩⟩ : TestState Int).has_data = 1 →
        test_get_max s1 = some (s1, MaxResult.error TestError.no_data)) :=
  ⟨by decide,
    rejected_set_clears_store id ⟨1, 2, ⟨2, some [3, 7]⟩⟩ [PyObj.long 3, PyObj.other]
      (by decide)⟩

theorem reachable_last (long_as_double : Int → α) (s : TestState α)
    (h : Reachable long_as_double s) :
    ∃ last, ReachableLast long_as_double s last ∧
      ((s.has_data = 0 ∧ s.store = DataState.init) ∨
        (s.has_data = 1 ∧ ∃ v : List α, last = some v ∧ s.store = ⟨v.length, some v⟩ ∧
          s.list_size = v.length)) := by
  induction h with
  | init => exact ⟨none, ReachableLast.init, Or.inl ⟨rfl, rfl⟩⟩
  | set_data s s1 arg e hreach hnl hstep ih =>
    obtain ⟨last, hlast, _⟩ := ih
    have hs := reachable_synced long_as_double s hreach
    cases e with
    | some e =>
      exact ⟨last, ReachableLast.refused s s1 last arg e hlast hnl hstep,
        Or.inl (test_set_data_fails long_as_double s s1 arg e hs hnl hstep)⟩
    | none =>
      obtain ⟨items, v, harg, hread, hs1⟩ :=
        test_set_data_accepted long_as_double s s1 arg hs hnl hstep
      subst harg
      refine ⟨some v, ReachableLast.accepted s s1 last items v hlast hstep hread, Or.inr ?_⟩
      rw [hs1]
      exact ⟨rfl, v, rfl, rfl, rfl⟩
  | get_max s s1 r _ hstep ih =>
    obtain ⟨last, hlast, hinv⟩ := ih
    have hst := test_get_max_state s s1 r hstep
    refine ⟨last, ReachableLast.get_max s s1 last r hlast hstep, ?_⟩
    rw [hst]; exact hinv

/-- In every state of `test.c` reachable from module load by calls with list arguments the
flag, the recorded size and the buffer agree: `has_data` is 0 or 1; with 0 the buffer is cleared; with 1 the recorded
size is the fixed length and the buffer holds exactly the last accepted input, and when that
input is not empty `test_get_max` returns its maximum. The call `test_data(.., 1)` always
finds a cleared store, so every list of numbers is accepted and stored. -/
theorem reachable_in_sync (long_as_double : Int → α) (s : TestState α)
    (h : Reachable long_as_double s) :
    ∃ last, ReachableLast long_as_double s last ∧
      (s.has_data = 0 ∨ s.has_data = 1) ∧
      (s.has_data = 0 → s.store.old_size = 0 ∧ s.store.data = none) ∧
      (s.has_data = 1 → ∃ v : List α, last = some v ∧ s.list_size = s.store.old_size ∧
        s.store = ⟨v.length, some v⟩ ∧
        (v ≠ [] → ∃ m, test_get_max s = some (s, MaxResult.returned (some m)) ∧
          m ∈ v ∧ ∀ x ∈ v, x ≤ m)) ∧
      (∃ s1, clear_if_has_data s = some s1 ∧ s1.store = DataState.init) ∧
      (∀ items v, read_items long_as_double items = some v →
        test_set_data long_as_double s (SetArg.list items)
          = some (⟨1, v.length, ⟨v.length, some v⟩⟩, none)) := by
  obtain ⟨last, hlast, hinv⟩ := reachable_last long_as_double s h
  refine ⟨last, hlast, ?_, ?_, ?_, ?_, ?_⟩
  · rcases hinv with ⟨h0, _⟩ | ⟨h1, _⟩
    · exact Or.inl h0
    · exact Or.inr h1
  · intro h0
    rcases hinv with ⟨_, hst⟩ | ⟨h1, _⟩
    · rw [hst]; exact ⟨rfl, rfl⟩
    · omega
  · intro h1
    rcases hinv with ⟨h0, _⟩ | ⟨_, v, hl, hst, hsz⟩
    · omega
    · refine ⟨v, hl, by rw [hsz, hst], hst, ?_⟩
      intro hv
      obtain ⟨m, hm, hmem, hle⟩ := max_value_spec v hv
      refine ⟨m, ?_, hmem, hle⟩
      obtain ⟨hd, ls, st⟩ := s
      simp only at h1 hst hsz
      subst h1 hst hsz
      simp [test_get_max, test_data, hm]
  · rcases hinv with ⟨h0, hst⟩ | ⟨h1, _⟩
    · exact ⟨s, by simp [clear_if_has_data, h0], hst⟩
    · exact ⟨{ s with has_data := 0, store := DataState.init },
        by simp [clear_if_has_data, h1, test_data, DataState.init], rfl⟩
  · intro items v hread
    apply test_set_data_list_ok long_as_double s items v _ hread
    rcases hinv with ⟨_, hst⟩ | ⟨h1, _⟩
    · right; rw [hst]; rfl
    · left; exact h1

/-- C13: at the failing input, `set_data([])` at module load followed by `get_max()`, the
state is reachable with last accepted input `[]`, and the flag, the recorded size and the
buffer agree (`has_data = 1`, `list_size = old_size = 0`, the buffer holds `[]`); but
`test_get_max` does not scan exactly the stored elements: `max_value` reads element 0, which
is not stored, and its result is undefined. -/
theorem get_max_reads_past_empty_store :
    ReachableLast id (⟨1, 0, ⟨0, some []⟩⟩ : TestState Int) (some []) ∧
    (⟨1, 0, ⟨0, some []⟩⟩ : TestState Int).list_size
      = (⟨1, 0, ⟨0, some []⟩⟩ : TestState Int).store.old_size ∧
    ([] : List Int)[0]? = none ∧
    test_get_max (⟨1, 0, ⟨0, some []⟩⟩ : TestState Int)
      = some (⟨1, 0, ⟨0, some []⟩⟩, MaxResult.returned none) :=
  ⟨ReachableLast.accepted TestState.init _ none [] [] ReachableLast.init (by decide) rfl,
    rfl, rfl, by decide⟩

end Sync

end Parseltongue
